import Mathlib

/-!
Verification of the water-quality ETL pipeline (extract / transform / load).

The development shallowly embeds the pipeline's core logic:

* `transform_quality_data` mirrors `scripts/transform.py`: an in-memory table
  of cells is deduplicated, its column names are normalised, missing values
  are zero-filled, categorical quality labels are mapped to ordinal codes and
  a general quality index is derived as a row-wise rounded mean.
* `extract` mirrors the `extract` task of `dags/quality.py`: an existence
  gate over an abstract file system that reports the byte size of the file.
* `transform_read` mirrors the chunked-read branch of the `transform` task.
* `load` mirrors the `load` task: state passing over an abstract database,
  with explicit success flags for each fallible step so that partial-failure
  runs can be analysed.
-/

/-- A cell of an in-memory table: a string, a (rational) number, or a missing
value (pandas `NaN`). -/
inductive Val where
  | str (s : String)
  | num (q : Rat)
  | missing
deriving DecidableEq, Repr

/-- An in-memory tabular dataset: column names plus rows of cells. -/
structure Table where
  cols : List String
  rows : List (List Val)
deriving DecidableEq, Repr

/-- A table is rectangular when every row has one cell per column (an
invariant of every dataframe produced by the CSV reader). -/
def Rect (t : Table) : Prop := ∀ r ∈ t.rows, r.length = t.cols.length

instance (t : Table) : Decidable (Rect t) :=
  inferInstanceAs (Decidable (∀ r ∈ t.rows, r.length = t.cols.length))

/-- Look up a row's cell under a column name (first matching column); an
absent column, or a row shorter than the column list, yields a missing
value. -/
def cell : List String → List Val → String → Val
  | c :: cs, v :: vs, nm => if c = nm then v else cell cs vs nm
  | _, _, _ => Val.missing

/-- Worker of `dedupRows`: drop every row equal to one already seen. -/
def dedupAux (seen : List (List Val)) : List (List Val) → List (List Val)
  | [] => []
  | r :: rs => if r ∈ seen then dedupAux seen rs else r :: dedupAux (r :: seen) rs

/-- Remove exact-duplicate rows keeping the first occurrence
(`df.drop_duplicates()`). -/
def dedupRows (l : List (List Val)) : List (List Val) := dedupAux [] l

/-- Strip leading and trailing whitespace from a character list (the
character-level content of `str.strip()`). -/
def trimChars (l : List Char) : List Char :=
  ((l.dropWhile Char.isWhitespace).reverse.dropWhile Char.isWhitespace).reverse

/-- Column-name normalisation of the transform:
`c.strip().replace(" ", "_").lower()`, realised character by character
(replacing a one-character pattern and lowercasing are character-wise). -/
def normName (c : String) : String :=
  ⟨(trimChars c.data).map (fun ch => Char.toLower (if ch = ' ' then '_' else ch))⟩

/-- `c.startswith(pre)` on column names. -/
def strStartsWith (c pre : String) : Bool := pre.data.isPrefixOf c.data

/-- One cell of `df.fillna(0)`: a missing value becomes the number `0`,
anything else is kept. -/
def fillna0 : Val → Val
  | Val.missing => Val.num 0
  | v => v

/-- One row of `df.fillna(0)`. -/
def fillRow (r : List Val) : List Val := r.map fillna0

/-- The fixed 4-level ordinal mapping of the quality categories. -/
def quality_map (s : String) : Option Rat :=
  if s = "Excelente" then some 1
  else if s = "Buena calidad" then some 2
  else if s = "Aceptable" then some 3
  else if s = "Contaminada" then some 4
  else none

/-- The fixed 3-level ordinal mapping of the traffic-light column. -/
def semaforo_map (s : String) : Option Rat :=
  if s = "VERDE" then some 1
  else if s = "AMARILLO" then some 2
  else if s = "ROJO" then some 3
  else none

/-- `series.map(mapping)` on one cell: a string cell is looked up in the
mapping; an unmapped string, a number or a missing value all produce a
missing result (pandas maps keys absent from the dictionary to `NaN`). -/
def mapVal (m : String → Option Rat) : Val → Val
  | Val.str s =>
    match m s with
    | some q => Val.num q
    | none => Val.missing
  | _ => Val.missing

/-- Exact rational addition, written through `mkRat` so that concrete runs of
the embedding reduce inside the kernel. -/
def qadd (a b : Rat) : Rat := mkRat (a.num * b.den + b.num * a.den) (a.den * b.den)

/-- Exact sum of a list of rationals. -/
def qsum (l : List Rat) : Rat := l.foldr qadd 0

/-- Exact division of a rational by a natural number. -/
def qdivNat (a : Rat) (n : Nat) : Rat := mkRat a.num (a.den * n)

/-- Exact multiplication of a rational by a natural number. -/
def qmulNat (a : Rat) (n : Nat) : Rat := mkRat (a.num * n) a.den

/-- Round a rational to the nearest integer, ties to even (the rounding used
by the numeric library underlying `Series.round`). -/
def roundHalfEven (q : Rat) : Int :=
  let f := q.num.fdiv q.den
  let rem := q.num - f * q.den
  if 2 * rem < (q.den : Int) then f
  else if (q.den : Int) < 2 * rem then f + 1
  else if f % 2 = 0 then f else f + 1

/-- Round to 2 decimal places (`Series.round(2)`). -/
def round2 (q : Rat) : Rat := mkRat (roundHalfEven (qmulNat q 100)) 100

/-- The numeric entries of a list of cells; missing values are skipped, as in
a row-wise pandas mean. -/
def numVals (vs : List Val) : List Rat :=
  vs.filterMap (fun v => match v with | Val.num q => some q | _ => none)

/-- Row-wise mean of the present numeric values, rounded to 2 decimals
(`df[cols].mean(axis=1).round(2)`); a row with no numeric value stays
missing. -/
def meanOpt (qs : List Rat) : Val :=
  if qs.isEmpty then Val.missing
  else Val.num (round2 (qdivNat (qsum qs) qs.length))

/-- `df[nm] = f(row)`: overwrite the column in place when it already exists,
otherwise append it on the right. -/
def setColF (t : Table) (nm : String) (f : List Val → Val) : Table :=
  match t.cols.findIdx? (fun c => c == nm) with
  | some i => ⟨t.cols, t.rows.map (fun r => r.set i (f r))⟩
  | none => ⟨t.cols ++ [nm], t.rows.map (fun r => r ++ [f r])⟩

/-- Stage 1 of the transform: `df = df.drop_duplicates()`. -/
def dedupTable (t : Table) : Table := ⟨t.cols, dedupRows t.rows⟩

/-- Stage 2 of the transform: normalise every column name. -/
def normalizeCols (t : Table) : Table := ⟨t.cols.map normName, t.rows⟩

/-- Stage 3 of the transform: `df.fillna(0)` across all columns. -/
def fillTable (t : Table) : Table := ⟨t.cols, t.rows.map fillRow⟩

/-- One conditional derivation block of the transform:
`if cat in df.columns: df[nm] = df[cat].map(quality_map)`. -/
def deriveStep (cat nm : String) (t : Table) : Table :=
  if cat ∈ t.cols then setColF t nm (fun r => mapVal quality_map (cell t.cols r cat))
  else t

/-- The general-index block of the transform: collect every column whose name
starts with `indice_calidad_` and, when any exists, add their row-wise
rounded mean as `indice_calidad_general`. -/
def generalStep (t : Table) : Table :=
  let ics := t.cols.filter (fun c => strStartsWith c "indice_calidad_")
  if ics.isEmpty then t
  else setColF t "indice_calidad_general"
    (fun r => meanOpt (numVals (ics.map (fun c => cell t.cols r c))))

/-- The traffic-light block of the transform:
`if "semaforo" in df.columns: df["semaforo_numerico"] = df["semaforo"].map(semaforo_map)`. -/
def semaforoStep (t : Table) : Table :=
  if "semaforo" ∈ t.cols then
    setColF t "semaforo_numerico" (fun r => mapVal semaforo_map (cell t.cols r "semaforo"))
  else t

/-- The derivation half of the transform, in source order: DQO, DBO and SST
ordinal codes, then the general index, then the numeric traffic light. -/
def deriveQuality (t : Table) : Table :=
  semaforoStep (generalStep
    (deriveStep "calidad_sst" "indice_calidad_sst"
      (deriveStep "calidad_dbo" "indice_calidad_dbo"
        (deriveStep "calidad_dqo" "indice_calidad_dqo" t))))

/-- `transform_quality_data` of `scripts/transform.py` on the in-memory
table: deduplicate, normalise column names, zero-fill missing values, then
derive the ordinal codes and indices. -/
def transform_quality_data (t : Table) : Table :=
  let t1 : Table := ⟨t.cols, dedupRows t.rows⟩
  let t2 : Table := ⟨t1.cols.map normName, t1.rows⟩
  let t3 : Table := ⟨t2.cols, t2.rows.map fillRow⟩
  deriveQuality t3

/-- The file system as the extract task sees it: which paths exist, their
byte sizes, and their contents (the latter never inspected by extract). -/
structure FS where
  present : String → Bool
  byteSize : String → Nat
  content : String → List String

/-- Outcome of the extract task. -/
inductive ExtractResult where
  | ok (size : Nat)
  | err (msg : String)
deriving DecidableEq, Repr

/-- The `extract` task of `dags/quality.py`: raise when the raw file does not
exist, otherwise log the file's byte size and succeed. -/
def extract (fs : FS) (path : String) : ExtractResult :=
  if fs.present path then ExtractResult.ok (fs.byteSize path)
  else ExtractResult.err (path ++ " no existe!")

/-- Split a list into consecutive batches of `n` elements (the row batches of
`pd.read_csv(..., chunksize=n)`); every batch but the last has exactly `n`
elements. -/
def chunksOf (n : Nat) : List α → List (List α)
  | [] => []
  | a :: l => (a :: l.take (n - 1)) :: chunksOf n (l.drop (n - 1))
termination_by l => l.length
decreasing_by
  simp only [List.length_cons, List.length_drop]
  omega

/-- Reading the source file whole (`pd.read_csv(RAW_FILE)`), at the level of
parsed rows. -/
def read_whole (file : List (List Val)) : List (List Val) := file

/-- The read branch of the `transform` task of `dags/quality.py`: a file over
5 MiB is read in 10,000-row batches that are concatenated
(`pd.concat(chunks, ignore_index=True)`); a smaller one is read whole. -/
def transform_read (fileSize : Nat) (file : List (List Val)) : List (List Val) :=
  if fileSize > 5 * 1024 * 1024 then (chunksOf 10000 file).flatten
  else read_whole file

/-- Stored definition of the `resumen_por_estado` view (literal quotes of the
SQL source elided): per-estado row count, mean general index and per-colour
semaforo counts, ordered by mean index descending. -/
def resumen_sql : String :=
  "SELECT estado, COUNT(*) AS total_sitios, AVG(indice_calidad_general) AS calidad_promedio, COUNT(semaforo = VERDE) AS sitios_verdes, COUNT(semaforo = AMARILLO) AS sitios_amarillos, COUNT(semaforo = ROJO) AS sitios_rojos FROM water_data.calidad_agua_clean GROUP BY estado ORDER BY calidad_promedio DESC"

/-- Stored definition of the `calidad_por_periodo` view: per-(periodo,
estado) count and mean/min/max general index, ordered by periodo descending
then estado. -/
def periodo_sql : String :=
  "SELECT periodo, estado, COUNT(*) AS mediciones, AVG(indice_calidad_general) AS calidad_promedio, MIN(indice_calidad_general) AS calidad_minima, MAX(indice_calidad_general) AS calidad_maxima FROM water_data.calidad_agua_clean GROUP BY periodo, estado ORDER BY periodo DESC, estado"

/-- State of the destination database: the views that exist (name paired with
stored definition) and the destination table (column names and rows), when it
exists. -/
structure DBState where
  views : List (String × String)
  table : Option (List String × List (List Val))
deriving DecidableEq

/-- The two `DROP VIEW IF EXISTS ... CASCADE` statements of the load task,
executed in one transaction. -/
def dropTwoViews (db : DBState) : DBState :=
  ⟨db.views.filter
      (fun v => v.1 ≠ "resumen_por_estado" ∧ v.1 ≠ "calidad_por_periodo"),
    db.table⟩

/-- One run's environment for the load task: the cleaned input read from the
parquet file, the wall-clock load timestamp, and a success flag for each
fallible database interaction (connection check, view-drop transaction, table
replacement, view-recreation transaction, verification queries). -/
structure LoadEnv where
  inputCols : List String
  inputRows : List (List Val)
  now : Rat
  connOk : Bool
  dropViewsOk : Bool
  replaceOk : Bool
  createViewsOk : Bool
  verifyOk : Bool

/-- The `load` task of `dags/quality.py` as a state transformer: each
transactional unit that completes persists in the returned database state,
and the first failing step stops the run with an error. Steps in source
order: connection check; attach `fecha_carga` to every row; drop the two
dependent views; replace `water_data.calidad_agua_clean` wholesale; recreate
the two views; verify with read-only queries. -/
def load (env : LoadEnv) (db : DBState) : DBState × Option String :=
  if env.connOk = false then (db, some "connection error") else
  let rows := env.inputRows.map (fun r => r ++ [Val.num env.now])
  let cols := env.inputCols ++ ["fecha_carga"]
  if env.dropViewsOk = false then (db, some "drop views error") else
  let db1 := dropTwoViews db
  if env.replaceOk = false then (db1, some "table replace error") else
  let db2 : DBState := ⟨db1.views, some (cols, rows)⟩
  if env.createViewsOk = false then (db2, some "create views error") else
  let db3 : DBState :=
    ⟨db2.views ++ [("resumen_por_estado", resumen_sql), ("calidad_por_periodo", periodo_sql)],
      db2.table⟩
  if env.verifyOk = false then (db3, some "verify error") else (db3, none)

/-- Number of rows of the destination table (0 when the table is absent). -/
def tableRowCount (db : DBState) : Nat :=
  match db.table with
  | some (_, rs) => rs.length
  | none => 0

/-! ## Basic lemmas about the table operations -/

theorem mem_of_mem_dedupAux {x : List Val} :
    ∀ (seen l : List (List Val)), x ∈ dedupAux seen l → x ∈ l := by
  intro seen l
  induction l generalizing seen with
  | nil => intro h; exact absurd h (by simp [dedupAux])
  | cons r rs ih =>
    intro h
    rw [dedupAux] at h
    by_cases hr : r ∈ seen
    · rw [if_pos hr] at h
      exact List.mem_cons_of_mem _ (ih seen h)
    · rw [if_neg hr] at h
      rcases List.mem_cons.1 h with h | h
      · exact h ▸ List.mem_cons_self _ _
      · exact List.mem_cons_of_mem _ (ih _ h)

theorem mem_of_mem_dedupRows {x : List Val} {l : List (List Val)}
    (h : x ∈ dedupRows l) : x ∈ l :=
  mem_of_mem_dedupAux [] l h

theorem dedupAux_nodup_and_fresh :
    ∀ (seen l : List (List Val)),
      (dedupAux seen l).Nodup ∧ ∀ x ∈ dedupAux seen l, x ∉ seen := by
  intro seen l
  induction l generalizing seen with
  | nil => simp [dedupAux]
  | cons r rs ih =>
    rw [dedupAux]
    by_cases hr : r ∈ seen
    · rw [if_pos hr]; exact ih seen
    · rw [if_neg hr]
      obtain ⟨hnd, hfresh⟩ := ih (r :: seen)
      refine ⟨List.nodup_cons.2 ⟨fun hx => ?_, hnd⟩, ?_⟩
      · exact (hfresh r hx) (List.mem_cons_self _ _)
      · intro x hx
        rcases List.mem_cons.1 hx with rfl | hx
        · exact hr
        · intro hxs
          exact hfresh x hx (List.mem_cons_of_mem _ hxs)

theorem dedupRows_nodup (l : List (List Val)) : (dedupRows l).Nodup :=
  (dedupAux_nodup_and_fresh [] l).1

theorem dedupAux_eq_self :
    ∀ (seen l : List (List Val)), l.Nodup → (∀ x ∈ l, x ∉ seen) →
      dedupAux seen l = l := by
  intro seen l
  induction l generalizing seen with
  | nil => intro _ _; rfl
  | cons r rs ih =>
    intro hnd hfresh
    rw [dedupAux, if_neg (hfresh r (List.mem_cons_self _ _))]
    obtain ⟨hr, hnd'⟩ := List.nodup_cons.1 hnd
    refine congrArg (r :: ·) (ih (r :: seen) hnd' ?_)
    intro x hx hmem
    rcases List.mem_cons.1 hmem with rfl | hmem
    · exact hr hx
    · exact hfresh x (List.mem_cons_of_mem _ hx) hmem

theorem dedupRows_eq_self_of_nodup {l : List (List Val)} (h : l.Nodup) :
    dedupRows l = l :=
  dedupAux_eq_self [] l h (by simp)

theorem dedupRows_idem (l : List (List Val)) :
    dedupRows (dedupRows l) = dedupRows l :=
  dedupRows_eq_self_of_nodup (dedupRows_nodup l)

theorem fillna0_ne_missing (v : Val) : fillna0 v ≠ Val.missing := by
  cases v <;> simp [fillna0]

theorem cell_of_not_mem {c : String} :
    ∀ (cols : List String) (row : List Val), c ∉ cols → cell cols row c = Val.missing := by
  intro cols
  induction cols with
  | nil => intro row _; cases row <;> rfl
  | cons c' cs ih =>
    intro row h
    cases row with
    | nil => rfl
    | cons v vs =>
      rw [cell, if_neg (fun hc => h (List.mem_cons.2 (Or.inl hc.symm)))]
      exact ih vs (fun hc => h (List.mem_cons_of_mem _ hc))

theorem cell_snoc {c nm : String} {v : Val} :
    ∀ (cols : List String) (row : List Val), row.length = cols.length →
      cell (cols ++ [nm]) (row ++ [v]) c =
        if c ∈ cols then cell cols row c
        else if c = nm then v else Val.missing := by
  intro cols
  induction cols with
  | nil =>
    intro row hlen
    rw [List.length_eq_zero.1 hlen]
    simp only [List.nil_append, List.not_mem_nil, if_false]
    rw [cell]
    by_cases h : c = nm
    · rw [if_pos (h.symm), if_pos h]
    · rw [if_neg (fun hc => h hc.symm), if_neg h]
      rfl
  | cons c' cs ih =>
    intro row hlen
    cases row with
    | nil => exact absurd hlen.symm (by simp)
    | cons w ws =>
      simp only [List.cons_append, List.mem_cons]
      rw [cell, cell]
      by_cases hc : c' = c
      · rw [if_pos hc, if_pos hc, if_pos (Or.inl hc.symm)]
      · rw [if_neg hc, if_neg hc]
        rw [ih ws (by simpa using hlen)]
        by_cases hmem : c ∈ cs
        · rw [if_pos hmem, if_pos (Or.inr hmem)]
        · have hor : ¬(c = c' ∨ c ∈ cs) := fun h => h.elim (fun h1 => hc h1.symm) hmem
          rw [if_neg hmem, if_neg hor]

theorem findIdx_beq_none {nm : String} {cols : List String} (h : nm ∉ cols) :
    cols.findIdx? (fun c => c == nm) = none := by
  rw [List.findIdx?_eq_none_iff]
  intro x hx
  exact beq_eq_false_iff_ne.2 (fun hxnm => h (hxnm ▸ hx))

theorem setColF_of_not_mem {t : Table} {nm : String} {f : List Val → Val}
    (h : nm ∉ t.cols) :
    setColF t nm f = ⟨t.cols ++ [nm], t.rows.map (fun r => r ++ [f r])⟩ := by
  rw [setColF, findIdx_beq_none h]

theorem cell_set_of_ne {c : String} {v : Val} :
    ∀ (cols : List String) (row : List Val) (i : Nat),
      (∀ hi : i < cols.length, cols.get ⟨i, hi⟩ ≠ c) →
      cell cols (row.set i v) c = cell cols row c := by
  intro cols
  induction cols with
  | nil => intro row i _; cases hrow : row.set i v <;> cases row <;> rfl
  | cons c' cs ih =>
    intro row i h
    cases row with
    | nil => rfl
    | cons w ws =>
      cases i with
      | zero =>
        have hne : c' ≠ c := h (by simp)
        rw [List.set_cons_zero, cell, cell, if_neg hne, if_neg hne]
      | succ j =>
        rw [List.set_cons_succ, cell, cell]
        by_cases hc : c' = c
        · rw [if_pos hc, if_pos hc]
        · rw [if_neg hc, if_neg hc]
          exact ih ws j (fun hj => h (Nat.succ_lt_succ hj))

theorem get_of_findIdx_beq {nm : String} {cols : List String} {i : Nat}
    (h : cols.findIdx? (fun c => c == nm) = some i) :
    ∀ hi : i < cols.length, cols.get ⟨i, hi⟩ = nm := by
  rw [List.findIdx?_eq_some_iff_getElem] at h
  obtain ⟨hlt, hp, _⟩ := h
  intro hi
  simpa [List.get_eq_getElem] using (beq_iff_eq.1 hp)

/-! ## Stage specifications for the derivation half of the transform -/

theorem deriveStep_spec (cat nm : String) (t : Table) (hR : Rect t) (hn : nm ∉ t.cols) :
    Rect (deriveStep cat nm t) ∧
    (deriveStep cat nm t).cols = t.cols ++ (if cat ∈ t.cols then [nm] else []) ∧
    ∀ row2 ∈ (deriveStep cat nm t).rows, ∃ row ∈ t.rows,
      (∀ c, c ≠ nm → cell (deriveStep cat nm t).cols row2 c = cell t.cols row c) ∧
      cell (deriveStep cat nm t).cols row2 nm =
        (if cat ∈ t.cols then mapVal quality_map (cell t.cols row cat) else Val.missing) := by
  by_cases hc : cat ∈ t.cols
  · simp only [deriveStep, if_pos hc, setColF_of_not_mem hn]
    refine ⟨?_, trivial, ?_⟩
    · intro r hr
      obtain ⟨r0, hr0, rfl⟩ := List.mem_map.1 hr
      simp [hR r0 hr0]
    · intro row2 h2
      obtain ⟨row, hrow, rfl⟩ := List.mem_map.1 h2
      refine ⟨row, hrow, ?_, ?_⟩
      · intro c hcne
        rw [cell_snoc t.cols row (hR row hrow)]
        by_cases hcm : c ∈ t.cols
        · rw [if_pos hcm]
        · rw [if_neg hcm, if_neg hcne, cell_of_not_mem t.cols row hcm]
      · rw [cell_snoc t.cols row (hR row hrow), if_neg hn, if_pos rfl]
  · simp only [deriveStep, if_neg hc]
    refine ⟨hR, by rw [List.append_nil], ?_⟩
    intro row2 h2
    exact ⟨row2, h2, fun c _ => rfl, by rw [cell_of_not_mem _ _ hn]⟩

theorem generalStep_spec (t : Table) (hR : Rect t)
    (hn : "indice_calidad_general" ∉ t.cols) :
    Rect (generalStep t) ∧
    (generalStep t).cols = t.cols ++
      (if (t.cols.filter (fun c => strStartsWith c "indice_calidad_")).isEmpty then []
       else ["indice_calidad_general"]) ∧
    ∀ row2 ∈ (generalStep t).rows, ∃ row ∈ t.rows,
      (∀ c, c ≠ "indice_calidad_general" →
        cell (generalStep t).cols row2 c = cell t.cols row c) ∧
      cell (generalStep t).cols row2 "indice_calidad_general" =
        (if (t.cols.filter (fun c => strStartsWith c "indice_calidad_")).isEmpty then Val.missing
         else meanOpt (numVals ((t.cols.filter (fun c => strStartsWith c "indice_calidad_")).map
           (fun c => cell t.cols row c)))) := by
  by_cases he : (t.cols.filter (fun c => strStartsWith c "indice_calidad_")).isEmpty
  · simp only [generalStep, if_pos he]
    refine ⟨hR, by rw [List.append_nil], ?_⟩
    intro row2 h2
    exact ⟨row2, h2, fun c _ => rfl, by rw [cell_of_not_mem _ _ hn]⟩
  · simp only [generalStep, if_neg he, setColF_of_not_mem hn]
    refine ⟨?_, trivial, ?_⟩
    · intro r hr
      obtain ⟨r0, hr0, rfl⟩ := List.mem_map.1 hr
      simp [hR r0 hr0]
    · intro row2 h2
      obtain ⟨row, hrow, rfl⟩ := List.mem_map.1 h2
      refine ⟨row, hrow, ?_, ?_⟩
      · intro c hcne
        rw [cell_snoc t.cols row (hR row hrow)]
        by_cases hcm : c ∈ t.cols
        · rw [if_pos hcm]
        · rw [if_neg hcm, if_neg hcne, cell_of_not_mem t.cols row hcm]
      · rw [cell_snoc t.cols row (hR row hrow), if_neg hn, if_pos rfl]

theorem semaforoStep_spec (t : Table) (hR : Rect t) :
    Rect (semaforoStep t) ∧
    ∀ row2 ∈ (semaforoStep t).rows, ∃ row ∈ t.rows,
      ∀ c, c ≠ "semaforo_numerico" →
        cell (semaforoStep t).cols row2 c = cell t.cols row c := by
  by_cases hs : "semaforo" ∈ t.cols
  · rcases hidx : t.cols.findIdx? (fun c => c == "semaforo_numerico") with _ | i
    · simp only [semaforoStep, if_pos hs, setColF, hidx]
      refine ⟨?_, ?_⟩
      · intro r hr
        obtain ⟨r0, hr0, rfl⟩ := List.mem_map.1 hr
        simp [hR r0 hr0]
      · intro row2 h2
        obtain ⟨row, hrow, rfl⟩ := List.mem_map.1 h2
        refine ⟨row, hrow, ?_⟩
        intro c hcne
        rw [cell_snoc t.cols row (hR row hrow)]
        by_cases hcm : c ∈ t.cols
        · rw [if_pos hcm]
        · rw [if_neg hcm, if_neg hcne, cell_of_not_mem t.cols row hcm]
    · simp only [semaforoStep, if_pos hs, setColF, hidx]
      refine ⟨?_, ?_⟩
      · intro r hr
        obtain ⟨r0, hr0, rfl⟩ := List.mem_map.1 hr
        simp [hR r0 hr0]
      · intro row2 h2
        obtain ⟨row, hrow, rfl⟩ := List.mem_map.1 h2
        refine ⟨row, hrow, ?_⟩
        intro c hcne
        exact cell_set_of_ne t.cols row i
          (fun hi => (get_of_findIdx_beq hidx hi).symm ▸ fun h => hcne h.symm)
  · simp only [semaforoStep, if_neg hs]
    exact ⟨hR, fun row2 h2 => ⟨row2, h2, fun c _ => rfl⟩⟩

theorem Rect_prep (t : Table) (hR : Rect t) :
    Rect (fillTable (normalizeCols (dedupTable t))) := by
  intro r hr
  simp only [fillTable, normalizeCols, dedupTable] at hr ⊢
  obtain ⟨r0, hr0, rfl⟩ := List.mem_map.1 hr
  simp only [fillRow, List.length_map]
  exact hR r0 (mem_of_mem_dedupRows hr0)

theorem mem_append_ite_iff {c nm : String} {l : List String} (p : Prop) [Decidable p]
    (h : c ≠ nm) : c ∈ l ++ (if p then [nm] else []) ↔ c ∈ l := by
  rw [List.mem_append]
  constructor
  · rintro (hm | hm)
    · exact hm
    · revert hm; split
      · intro hm; exact absurd (List.mem_singleton.1 hm) h
      · intro hm; exact absurd hm (List.not_mem_nil c)
  · exact Or.inl

theorem pfx_ne_semnum {c : String} (h : strStartsWith c "indice_calidad_" = true) :
    c ≠ "semaforo_numerico" := by
  rintro rfl
  exact absurd h (by decide)

theorem numVals_append (xs ys : List Val) :
    numVals (xs ++ ys) = numVals xs ++ numVals ys :=
  List.filterMap_append xs ys _

theorem numVals_triple (a b c : Val) :
    numVals [a, b, c] = (numVals [a] ++ numVals [b]) ++ numVals [c] := by
  rw [show ([a, b, c] : List Val) = ([a] ++ [b]) ++ [c] from rfl, numVals_append, numVals_append]

/-- Core characterisation of the derived general index: on a table whose
columns do not already use the four derived names, the value stored in
`indice_calidad_general` for every output row is the rounded mean of the
numeric values found under the inherited `indice_calidad_`-prefixed columns
together with the three derived ordinal columns of the same row. -/
theorem general_cell_core (t t4 t5 t6 t7 t8 : Table) (hR : Rect t)
    (h1 : "indice_calidad_dqo" ∉ t.cols) (h2 : "indice_calidad_dbo" ∉ t.cols)
    (h3 : "indice_calidad_sst" ∉ t.cols) (h4 : "indice_calidad_general" ∉ t.cols)
    (e4 : t4 = deriveStep "calidad_dqo" "indice_calidad_dqo" t)
    (e5 : t5 = deriveStep "calidad_dbo" "indice_calidad_dbo" t4)
    (e6 : t6 = deriveStep "calidad_sst" "indice_calidad_sst" t5)
    (e7 : t7 = generalStep t6)
    (e8 : t8 = semaforoStep t7) :
    ∀ row ∈ t8.rows,
      cell t8.cols row "indice_calidad_general" =
        meanOpt (numVals
          ((t.cols.filter (fun c => strStartsWith c "indice_calidad_")).map
              (fun c => cell t8.cols row c) ++
            [cell t8.cols row "indice_calidad_dqo",
             cell t8.cols row "indice_calidad_dbo",
             cell t8.cols row "indice_calidad_sst"])) := by
  intro row hrow
  have Hs4 := deriveStep_spec "calidad_dqo" "indice_calidad_dqo" t hR h1
  rw [← e4] at Hs4
  obtain ⟨R4, C4, S4⟩ := Hs4
  have h2m : "indice_calidad_dbo" ∉ t4.cols := by
    rw [C4]
    intro hm
    exact h2 ((mem_append_ite_iff _ (by decide)).1 hm)
  have Hs5 := deriveStep_spec "calidad_dbo" "indice_calidad_dbo" t4 R4 h2m
  rw [← e5] at Hs5
  obtain ⟨R5, C5, S5⟩ := Hs5
  have h3m : "indice_calidad_sst" ∉ t5.cols := by
    rw [C5, C4]
    intro hm
    exact h3 ((mem_append_ite_iff _ (by decide)).1 ((mem_append_ite_iff _ (by decide)).1 hm))
  have Hs6 := deriveStep_spec "calidad_sst" "indice_calidad_sst" t5 R5 h3m
  rw [← e6] at Hs6
  obtain ⟨R6, C6, S6⟩ := Hs6
  have h4m : "indice_calidad_general" ∉ t6.cols := by
    rw [C6, C5, C4]
    intro hm
    exact h4 ((mem_append_ite_iff _ (by decide)).1
      ((mem_append_ite_iff _ (by decide)).1 ((mem_append_ite_iff _ (by decide)).1 hm)))
  have Hs7 := generalStep_spec t6 R6 h4m
  rw [← e7] at Hs7
  obtain ⟨R7, C7, S7⟩ := Hs7
  have Hs8 := semaforoStep_spec t7 R7
  rw [← e8] at Hs8
  obtain ⟨R8, S8⟩ := Hs8
  obtain ⟨row7, hrow7, P8⟩ := S8 row hrow
  obtain ⟨row6, hrow6, P7, G7⟩ := S7 row7 hrow7
  obtain ⟨row5, hrow5, P6, V6⟩ := S6 row6 hrow6
  obtain ⟨row4, hrow4, P5, V5⟩ := S5 row5 hrow5
  obtain ⟨row0, hrow0, P4, V4⟩ := S4 row4 hrow4
  have mdbo : ("calidad_dbo" ∈ t4.cols) ↔ ("calidad_dbo" ∈ t.cols) := by
    rw [C4]; exact mem_append_ite_iff _ (by decide)
  have msst : ("calidad_sst" ∈ t5.cols) ↔ ("calidad_sst" ∈ t.cols) := by
    rw [C5, C4]
    exact (mem_append_ite_iff _ (by decide)).trans (mem_append_ite_iff _ (by decide))
  simp only [mdbo] at C5 V5
  simp only [msst] at C6 V6
  rw [P4 _ (by decide)] at V5
  rw [P5 _ (by decide), P4 _ (by decide)] at V6
  have c6dqo : cell t6.cols row6 "indice_calidad_dqo" =
      (if "calidad_dqo" ∈ t.cols then
        mapVal quality_map (cell t.cols row0 "calidad_dqo") else Val.missing) := by
    rw [P6 _ (by decide), P5 _ (by decide), V4]
  have c6dbo : cell t6.cols row6 "indice_calidad_dbo" =
      (if "calidad_dbo" ∈ t.cols then
        mapVal quality_map (cell t.cols row0 "calidad_dbo") else Val.missing) := by
    rw [P6 _ (by decide), V5]
  have c6sst : cell t6.cols row6 "indice_calidad_sst" =
      (if "calidad_sst" ∈ t.cols then
        mapVal quality_map (cell t.cols row0 "calidad_sst") else Val.missing) := V6
  have t8dqo : cell t8.cols row "indice_calidad_dqo" =
      cell t6.cols row6 "indice_calidad_dqo" := by
    rw [P8 _ (by decide), P7 _ (by decide)]
  have t8dbo : cell t8.cols row "indice_calidad_dbo" =
      cell t6.cols row6 "indice_calidad_dbo" := by
    rw [P8 _ (by decide), P7 _ (by decide)]
  have t8sst : cell t8.cols row "indice_calidad_sst" =
      cell t6.cols row6 "indice_calidad_sst" := by
    rw [P8 _ (by decide), P7 _ (by decide)]
  have t8gen : cell t8.cols row "indice_calidad_general" =
      cell t7.cols row7 "indice_calidad_general" := P8 _ (by decide)
  have hmapeq : (t.cols.filter (fun c => strStartsWith c "indice_calidad_")).map
        (fun c => cell t8.cols row c) =
      (t.cols.filter (fun c => strStartsWith c "indice_calidad_")).map
        (fun c => cell t6.cols row6 c) := by
    apply List.map_congr_left
    intro c hc
    obtain ⟨hct, hcp⟩ := List.mem_filter.1 hc
    have hgen : c ≠ "indice_calidad_general" := fun hcg => h4 (hcg ▸ hct)
    rw [P8 c (pfx_ne_semnum hcp), P7 c hgen]
  have hcols6 : t6.cols =
      ((t.cols ++ (if "calidad_dqo" ∈ t.cols then ["indice_calidad_dqo"] else [])) ++
        (if "calidad_dbo" ∈ t.cols then ["indice_calidad_dbo"] else [])) ++
        (if "calidad_sst" ∈ t.cols then ["indice_calidad_sst"] else []) := by
    rw [C6, C5, C4]
  have fi1 : (if "calidad_dqo" ∈ t.cols then ["indice_calidad_dqo"] else []).filter
        (fun c => strStartsWith c "indice_calidad_") =
      (if "calidad_dqo" ∈ t.cols then ["indice_calidad_dqo"] else []) := by
    split <;> rfl
  have fi2 : (if "calidad_dbo" ∈ t.cols then ["indice_calidad_dbo"] else []).filter
        (fun c => strStartsWith c "indice_calidad_") =
      (if "calidad_dbo" ∈ t.cols then ["indice_calidad_dbo"] else []) := by
    split <;> rfl
  have fi3 : (if "calidad_sst" ∈ t.cols then ["indice_calidad_sst"] else []).filter
        (fun c => strStartsWith c "indice_calidad_") =
      (if "calidad_sst" ∈ t.cols then ["indice_calidad_sst"] else []) := by
    split <;> rfl
  have hfil : t6.cols.filter (fun c => strStartsWith c "indice_calidad_") =
      ((t.cols.filter (fun c => strStartsWith c "indice_calidad_") ++
          (if "calidad_dqo" ∈ t.cols then ["indice_calidad_dqo"] else [])) ++
        (if "calidad_dbo" ∈ t.cols then ["indice_calidad_dbo"] else [])) ++
        (if "calidad_sst" ∈ t.cols then ["indice_calidad_sst"] else []) := by
    rw [hcols6, List.filter_append, List.filter_append, List.filter_append, fi1, fi2, fi3]
  have comp1 : numVals ((if "calidad_dqo" ∈ t.cols then ["indice_calidad_dqo"] else []).map
        (fun c => cell t6.cols row6 c)) =
      numVals [cell t6.cols row6 "indice_calidad_dqo"] := by
    by_cases hc : "calidad_dqo" ∈ t.cols
    · rw [if_pos hc]
      rfl
    · rw [if_neg hc, c6dqo, if_neg hc]
      rfl
  have comp2 : numVals ((if "calidad_dbo" ∈ t.cols then ["indice_calidad_dbo"] else []).map
        (fun c => cell t6.cols row6 c)) =
      numVals [cell t6.cols row6 "indice_calidad_dbo"] := by
    by_cases hc : "calidad_dbo" ∈ t.cols
    · rw [if_pos hc]
      rfl
    · rw [if_neg hc, c6dbo, if_neg hc]
      rfl
  have comp3 : numVals ((if "calidad_sst" ∈ t.cols then ["indice_calidad_sst"] else []).map
        (fun c => cell t6.cols row6 c)) =
      numVals [cell t6.cols row6 "indice_calidad_sst"] := by
    by_cases hc : "calidad_sst" ∈ t.cols
    · rw [if_pos hc]
      rfl
    · rw [if_neg hc, c6sst, if_neg hc]
      rfl
  rw [t8gen, G7, hfil, hmapeq, t8dqo, t8dbo, t8sst]
  by_cases hLE : (((t.cols.filter (fun c => strStartsWith c "indice_calidad_") ++
        (if "calidad_dqo" ∈ t.cols then ["indice_calidad_dqo"] else [])) ++
      (if "calidad_dbo" ∈ t.cols then ["indice_calidad_dbo"] else [])) ++
      (if "calidad_sst" ∈ t.cols then ["indice_calidad_sst"] else [])).isEmpty = true
  · rw [if_pos hLE]
    rw [List.isEmpty_iff] at hLE
    have h123 := List.append_eq_nil.1 hLE
    have hi3 := h123.2
    have h12 := List.append_eq_nil.1 h123.1
    have hi2 := h12.2
    have hp := (List.append_eq_nil.1 h12.1).1
    have hi1 := (List.append_eq_nil.1 h12.1).2
    have hc1 : "calidad_dqo" ∉ t.cols := by
      intro hc; rw [if_pos hc] at hi1; exact absurd hi1 (by simp)
    have hc2 : "calidad_dbo" ∉ t.cols := by
      intro hc; rw [if_pos hc] at hi2; exact absurd hi2 (by simp)
    have hc3 : "calidad_sst" ∉ t.cols := by
      intro hc; rw [if_pos hc] at hi3; exact absurd hi3 (by simp)
    rw [hp, c6dqo, if_neg hc1, c6dbo, if_neg hc2, c6sst, if_neg hc3]
    rfl
  · rw [if_neg hLE]
    rw [List.map_append, List.map_append, List.map_append,
      numVals_append, numVals_append, numVals_append,
      comp1, comp2, comp3, numVals_append, numVals_triple]
    simp [List.append_assoc]

/-! ## Claim theorems -/

theorem flatten_chunksOf {α : Type _} (n : Nat) : ∀ l : List α, (chunksOf n l).flatten = l
  | [] => by rw [chunksOf]; rfl
  | a :: l => by
    rw [chunksOf, List.flatten_cons, flatten_chunksOf n (l.drop (n - 1)),
      List.cons_append, List.take_append_drop]
termination_by l => l.length
decreasing_by
  simp only [List.length_cons, List.length_drop]
  omega

/-- C5: for every file size and every parsed file content, the chunked read
path (10,000-row batches concatenated, taken above the 5 MiB threshold)
yields exactly the same in-memory table as reading the file whole, so the
transform's result does not depend on the read path taken. -/
theorem transform_read_path_equivalence (fileSize : Nat) (file : List (List Val))
    (cols : List String) :
    transform_read fileSize file = read_whole file ∧
    transform_quality_data ⟨cols, transform_read fileSize file⟩ =
      transform_quality_data ⟨cols, read_whole file⟩ := by
  have h : transform_read fileSize file = read_whole file := by
    rw [transform_read, read_whole]
    split
    · exact flatten_chunksOf 10000 file
    · rfl
  exact ⟨h, by rw [h]⟩

/-- C7: the transform performs its cleaning in a fixed order: exact-row-match
deduplication first (its result is duplicate-free and a pre-deduplicated
input transforms identically), then column-name normalisation, then a
zero-fill that eliminates every missing value across all columns before any
categorical mapping is applied. -/
theorem transform_cleaning_order (t : Table) :
    transform_quality_data t = deriveQuality (fillTable (normalizeCols (dedupTable t))) ∧
    (dedupTable t).rows.Nodup ∧
    (∀ r ∈ (fillTable (normalizeCols (dedupTable t))).rows, Val.missing ∉ r) ∧
    transform_quality_data (dedupTable t) = transform_quality_data t := by
  refine ⟨rfl, dedupRows_nodup t.rows, ?_, ?_⟩
  · intro r hr
    simp only [fillTable, normalizeCols, dedupTable] at hr
    obtain ⟨r0, _, rfl⟩ := List.mem_map.1 hr
    intro hm
    rw [fillRow] at hm
    obtain ⟨v, _, hv⟩ := List.mem_map.1 hm
    exact fillna0_ne_missing v hv
  · simp only [transform_quality_data, dedupTable, dedupRows_idem]

/-- C10: a cleaned output can contain exact-duplicate rows: two source rows
differing only in a missing value versus an explicit 0 both survive the
deduplication (which runs before the zero-fill) and the zero-fill then makes
them identical. -/
theorem transform_output_can_contain_duplicates :
    ([[Val.str "Excelente", Val.missing], [Val.str "Excelente", Val.num 0]] :
      List (List Val)).Nodup ∧
    (transform_quality_data ⟨["calidad_dqo", "solidos"],
        [[Val.str "Excelente", Val.missing], [Val.str "Excelente", Val.num 0]]⟩).rows =
      [[Val.str "Excelente", Val.num 0, Val.num 1, Val.num 1],
       [Val.str "Excelente", Val.num 0, Val.num 1, Val.num 1]] ∧
    ¬ (transform_quality_data ⟨["calidad_dqo", "solidos"],
        [[Val.str "Excelente", Val.missing], [Val.str "Excelente", Val.num 0]]⟩).rows.Nodup :=
  ⟨by decide, by decide, by decide⟩

/-- C2 (amended): the extract task fails with the missing-source error
exactly when the raw file does not exist; when the file exists it succeeds
and reports the file's byte size, even for an empty (0-byte) file, and its
outcome never depends on the file's contents (no parsing). -/
theorem extract_exists_gate_spec (fs : FS) (p : String) :
    (fs.present p = false → extract fs p = ExtractResult.err (p ++ " no existe!")) ∧
    (fs.present p = true → extract fs p = ExtractResult.ok (fs.byteSize p)) ∧
    (∀ fs2 : FS, fs2.present = fs.present → fs2.byteSize = fs.byteSize →
      extract fs2 p = extract fs p) := by
  refine ⟨?_, ?_, ?_⟩
  · intro h; simp [extract, h]
  · intro h; simp [extract, h]
  · intro fs2 h1 h2; simp [extract, h1, h2]

theorem extract_exists_gate_spec_witness :
    extract ⟨fun _ => false, fun _ => 0, fun _ => []⟩ "calidad_agua.csv" =
      ExtractResult.err ("calidad_agua.csv" ++ " no existe!") ∧
    extract ⟨fun _ => true, fun _ => 7, fun _ => []⟩ "calidad_agua.csv" =
      ExtractResult.ok 7 :=
  ⟨(extract_exists_gate_spec ⟨fun _ => false, fun _ => 0, fun _ => []⟩ "calidad_agua.csv").1 rfl,
   (extract_exists_gate_spec ⟨fun _ => true, fun _ => 7, fun _ => []⟩ "calidad_agua.csv").2.1 rfl⟩

/-- C2 counterexample: an existing but empty (0-byte) file makes the extract
task succeed reporting size 0; it does not fail, contradicting the claim that
the stage verifies the file is non-empty. -/
theorem extract_ok_on_empty_file :
    extract ⟨fun _ => true, fun _ => 0, fun _ => []⟩ "calidad_agua.csv" = ExtractResult.ok 0 ∧
    ExtractResult.ok 0 ≠ ExtractResult.err ("calidad_agua.csv" ++ " no existe!") :=
  ⟨rfl, by decide⟩

/-- C3: any cell value that is not one of the four known quality labels
(including an empty string and a missing value zero-filled to the number 0)
is mapped to a missing ordinal without any error, the missing ordinal is
excluded from the mean input, and on a concrete row the general index is the
mean of the remaining mapped codes alone. -/
theorem unmapped_category_soft_fail (v : Val)
    (h : ∀ s : String, v = Val.str s → quality_map s = none) :
    mapVal quality_map (fillna0 v) = Val.missing ∧
    (∀ vs : List Val, numVals (Val.missing :: vs) = numVals vs) ∧
    (transform_quality_data ⟨["calidad_dqo", "calidad_dbo"],
        [[v, Val.str "Contaminada"]]⟩).rows =
      [[fillna0 v, Val.str "Contaminada", Val.missing, Val.num 4, Val.num 4]] := by
  have h1 : mapVal quality_map (fillna0 v) = Val.missing := by
    cases v with
    | str s => simp [fillna0, mapVal, h s rfl]
    | num q => rfl
    | missing => rfl
  refine ⟨h1, fun vs => rfl, ?_⟩
  have e : (transform_quality_data ⟨["calidad_dqo", "calidad_dbo"],
      [[v, Val.str "Contaminada"]]⟩).rows =
    [[fillna0 v, Val.str "Contaminada", mapVal quality_map (fillna0 v), Val.num 4,
      meanOpt (numVals [mapVal quality_map (fillna0 v), Val.num 4])]] := rfl
  rw [e, h1, show meanOpt (numVals [Val.missing, Val.num 4]) = Val.num 4 from by decide]

theorem unmapped_category_soft_fail_witness :
    mapVal quality_map (fillna0 (Val.str "")) = Val.missing ∧
    numVals (Val.missing :: [Val.num 4]) = numVals [Val.num 4] ∧
    (transform_quality_data ⟨["calidad_dqo", "calidad_dbo"],
        [[Val.str "", Val.str "Contaminada"]]⟩).rows =
      [[fillna0 (Val.str ""), Val.str "Contaminada", Val.missing, Val.num 4, Val.num 4]] :=
  ⟨(unmapped_category_soft_fail (Val.str "") (fun s hs => by cases hs; decide)).1,
   (unmapped_category_soft_fail (Val.str "") (fun s hs => by cases hs; decide)).2.1 [Val.num 4],
   (unmapped_category_soft_fail (Val.str "") (fun s hs => by cases hs; decide)).2.2⟩

/-- C9: when no normalized column is one of the three category columns and no
normalized column starts with the `indice_calidad_` prefix, the transform
still succeeds and its output has no `indice_calidad_general` column at all. -/
theorem transform_no_general_index_column (t : Table)
    (h : ∀ c ∈ t.cols, normName c ≠ "calidad_dqo" ∧ normName c ≠ "calidad_dbo" ∧
      normName c ≠ "calidad_sst" ∧ strStartsWith (normName c) "indice_calidad_" = false) :
    "indice_calidad_general" ∉ (transform_quality_data t).cols := by
  have hnc : ∀ nm : String,
      (∀ c ∈ t.cols, normName c ≠ nm) →
      nm ∉ (fillTable (normalizeCols (dedupTable t))).cols := by
    intro nm hne hmem
    simp only [fillTable, normalizeCols, dedupTable] at hmem
    obtain ⟨c, hc, hceq⟩ := List.mem_map.1 hmem
    exact hne c hc hceq
  have hpfx : ∀ nm : String, strStartsWith nm "indice_calidad_" = true →
      nm ∉ (fillTable (normalizeCols (dedupTable t))).cols := by
    intro nm hsw hmem
    simp only [fillTable, normalizeCols, dedupTable] at hmem
    obtain ⟨c, hc, rfl⟩ := List.mem_map.1 hmem
    rw [(h c hc).2.2.2] at hsw
    cases hsw
  have hdqo := hnc "calidad_dqo" (fun c hc => (h c hc).1)
  have hdbo := hnc "calidad_dbo" (fun c hc => (h c hc).2.1)
  have hsst := hnc "calidad_sst" (fun c hc => (h c hc).2.2.1)
  have hgen := hpfx "indice_calidad_general" (by decide)
  have hfil : (fillTable (normalizeCols (dedupTable t))).cols.filter
      (fun c => strStartsWith c "indice_calidad_") = [] := by
    rw [List.filter_eq_nil_iff]
    intro c hc hsw
    exact hpfx c hsw hc
  have e4 : deriveStep "calidad_dqo" "indice_calidad_dqo"
      (fillTable (normalizeCols (dedupTable t))) = fillTable (normalizeCols (dedupTable t)) := by
    rw [deriveStep, if_neg hdqo]
  have e5 : deriveStep "calidad_dbo" "indice_calidad_dbo"
      (fillTable (normalizeCols (dedupTable t))) = fillTable (normalizeCols (dedupTable t)) := by
    rw [deriveStep, if_neg hdbo]
  have e6 : deriveStep "calidad_sst" "indice_calidad_sst"
      (fillTable (normalizeCols (dedupTable t))) = fillTable (normalizeCols (dedupTable t)) := by
    rw [deriveStep, if_neg hsst]
  have e7 : generalStep (fillTable (normalizeCols (dedupTable t))) =
      fillTable (normalizeCols (dedupTable t)) := by
    simp only [generalStep, hfil]
    rfl
  have etr : transform_quality_data t =
      semaforoStep (fillTable (normalizeCols (dedupTable t))) := by
    show semaforoStep (generalStep (deriveStep "calidad_sst" "indice_calidad_sst"
      (deriveStep "calidad_dbo" "indice_calidad_dbo"
        (deriveStep "calidad_dqo" "indice_calidad_dqo"
          (fillTable (normalizeCols (dedupTable t))))))) = _
    rw [e4, e5, e6, e7]
  rw [etr]
  by_cases hsem : "semaforo" ∈ (fillTable (normalizeCols (dedupTable t))).cols
  · rw [semaforoStep, if_pos hsem]
    rcases hidx : (fillTable (normalizeCols (dedupTable t))).cols.findIdx?
        (fun c => c == "semaforo_numerico") with _ | i
    · simp only [setColF, hidx]
      intro hm
      rcases List.mem_append.1 hm with hm | hm
      · exact hgen hm
      · exact absurd (List.mem_singleton.1 hm) (by decide)
    · simp only [setColF, hidx]
      exact hgen
  · rw [semaforoStep, if_neg hsem]
    exact hgen

theorem transform_no_general_index_column_witness :
    "indice_calidad_general" ∉
      (transform_quality_data ⟨["estado", "periodo", "semaforo"],
        [[Val.str "Sonora", Val.str "2024", Val.str "VERDE"]]⟩).cols :=
  transform_no_general_index_column
    ⟨["estado", "periodo", "semaforo"], [[Val.str "Sonora", Val.str "2024", Val.str "VERDE"]]⟩
    (by decide)

/-- C8: the general index of every output row is the rounded row-wise mean
over every column whose normalized name starts with `indice_calidad_` -- the
prefix-matched columns inherited from the source file together with the three
derived ordinal columns -- not over a fixed set of three. -/
theorem general_index_prefix_mean (t : Table) (hR : Rect t)
    (h1 : "indice_calidad_dqo" ∉ t.cols.map normName)
    (h2 : "indice_calidad_dbo" ∉ t.cols.map normName)
    (h3 : "indice_calidad_sst" ∉ t.cols.map normName)
    (h4 : "indice_calidad_general" ∉ t.cols.map normName) :
    ∀ row ∈ (transform_quality_data t).rows,
      cell (transform_quality_data t).cols row "indice_calidad_general" =
        meanOpt (numVals
          (((t.cols.map normName).filter (fun c => strStartsWith c "indice_calidad_")).map
              (fun c => cell (transform_quality_data t).cols row c) ++
            [cell (transform_quality_data t).cols row "indice_calidad_dqo",
             cell (transform_quality_data t).cols row "indice_calidad_dbo",
             cell (transform_quality_data t).cols row "indice_calidad_sst"])) := by
  exact general_cell_core (fillTable (normalizeCols (dedupTable t))) _ _ _ _ _
    (Rect_prep t hR) h1 h2 h3 h4 rfl rfl rfl rfl rfl

theorem general_index_prefix_mean_witness :
    cell (transform_quality_data ⟨["calidad_dqo", "indice_calidad_custom"],
        [[Val.str "Excelente", Val.num 5]]⟩).cols
      [Val.str "Excelente", Val.num 5, Val.num 1, Val.num 3] "indice_calidad_general" =
      meanOpt (numVals
        (((["calidad_dqo", "indice_calidad_custom"].map normName).filter
            (fun c => strStartsWith c "indice_calidad_")).map
            (fun c => cell (transform_quality_data ⟨["calidad_dqo", "indice_calidad_custom"],
              [[Val.str "Excelente", Val.num 5]]⟩).cols
              [Val.str "Excelente", Val.num 5, Val.num 1, Val.num 3] c) ++
          [cell (transform_quality_data ⟨["calidad_dqo", "indice_calidad_custom"],
              [[Val.str "Excelente", Val.num 5]]⟩).cols
            [Val.str "Excelente", Val.num 5, Val.num 1, Val.num 3] "indice_calidad_dqo",
           cell (transform_quality_data ⟨["calidad_dqo", "indice_calidad_custom"],
              [[Val.str "Excelente", Val.num 5]]⟩).cols
            [Val.str "Excelente", Val.num 5, Val.num 1, Val.num 3] "indice_calidad_dbo",
           cell (transform_quality_data ⟨["calidad_dqo", "indice_calidad_custom"],
              [[Val.str "Excelente", Val.num 5]]⟩).cols
            [Val.str "Excelente", Val.num 5, Val.num 1, Val.num 3] "indice_calidad_sst"])) ∧
    (transform_quality_data ⟨["calidad_dqo", "indice_calidad_custom"],
        [[Val.str "Excelente", Val.num 5]]⟩).rows =
      [[Val.str "Excelente", Val.num 5, Val.num 1, Val.num 3]] :=
  ⟨general_index_prefix_mean ⟨["calidad_dqo", "indice_calidad_custom"],
      [[Val.str "Excelente", Val.num 5]]⟩
    (by decide) (by decide) (by decide) (by decide) (by decide)
    [Val.str "Excelente", Val.num 5, Val.num 1, Val.num 3] (by decide), by decide⟩

/-- C1 (amended): provided no source column's normalized name already starts
with `indice_calidad_`, the general index of every row of the cleaned table
is the arithmetic mean, rounded to 2 decimals, of the ordinal codes of the
quality categories present (non-missing) in that row. -/
theorem general_index_mean_of_present_categories (t : Table) (hR : Rect t)
    (hpfx : ∀ c ∈ t.cols, strStartsWith (normName c) "indice_calidad_" = false) :
    ∀ row ∈ (transform_quality_data t).rows,
      cell (transform_quality_data t).cols row "indice_calidad_general" =
        meanOpt (numVals
          [cell (transform_quality_data t).cols row "indice_calidad_dqo",
           cell (transform_quality_data t).cols row "indice_calidad_dbo",
           cell (transform_quality_data t).cols row "indice_calidad_sst"]) := by
  have hnm : ∀ nm : String, strStartsWith nm "indice_calidad_" = true →
      nm ∉ (fillTable (normalizeCols (dedupTable t))).cols := by
    intro nm hsw hmem
    simp only [fillTable, normalizeCols, dedupTable] at hmem
    obtain ⟨c, hc, rfl⟩ := List.mem_map.1 hmem
    rw [hpfx c hc] at hsw
    cases hsw
  have hfil : (fillTable (normalizeCols (dedupTable t))).cols.filter
      (fun c => strStartsWith c "indice_calidad_") = [] := by
    rw [List.filter_eq_nil_iff]
    intro c hc hsw
    exact hnm c hsw hc
  intro row hrow
  have h := general_cell_core (fillTable (normalizeCols (dedupTable t))) _ _ _ _ _
    (Rect_prep t hR) (hnm _ (by decide)) (hnm _ (by decide)) (hnm _ (by decide))
    (hnm _ (by decide)) rfl rfl rfl rfl rfl row hrow
  rw [hfil] at h
  simpa using h

theorem general_index_mean_of_present_categories_witness :
    cell (transform_quality_data ⟨["calidad_dqo", "calidad_dbo"],
        [[Val.str "Excelente", Val.str "Contaminada"]]⟩).cols
      [Val.str "Excelente", Val.str "Contaminada", Val.num 1, Val.num 4, Val.num (mkRat 5 2)]
      "indice_calidad_general" =
      meanOpt (numVals
        [cell (transform_quality_data ⟨["calidad_dqo", "calidad_dbo"],
            [[Val.str "Excelente", Val.str "Contaminada"]]⟩).cols
          [Val.str "Excelente", Val.str "Contaminada", Val.num 1, Val.num 4,
            Val.num (mkRat 5 2)] "indice_calidad_dqo",
         cell (transform_quality_data ⟨["calidad_dqo", "calidad_dbo"],
            [[Val.str "Excelente", Val.str "Contaminada"]]⟩).cols
          [Val.str "Excelente", Val.str "Contaminada", Val.num 1, Val.num 4,
            Val.num (mkRat 5 2)] "indice_calidad_dbo",
         cell (transform_quality_data ⟨["calidad_dqo", "calidad_dbo"],
            [[Val.str "Excelente", Val.str "Contaminada"]]⟩).cols
          [Val.str "Excelente", Val.str "Contaminada", Val.num 1, Val.num 4,
            Val.num (mkRat 5 2)] "indice_calidad_sst"]) ∧
    (transform_quality_data ⟨["calidad_dqo", "calidad_dbo"],
        [[Val.str "Excelente", Val.str "Contaminada"]]⟩).rows =
      [[Val.str "Excelente", Val.str "Contaminada", Val.num 1, Val.num 4,
        Val.num (mkRat 5 2)]] ∧
    cell (transform_quality_data ⟨["calidad_dqo", "calidad_dbo"],
        [[Val.str "Excelente", Val.str "Contaminada"]]⟩).cols
      [Val.str "Excelente", Val.str "Contaminada", Val.num 1, Val.num 4, Val.num (mkRat 5 2)]
      "indice_calidad_general" = Val.num (mkRat 5 2) :=
  ⟨general_index_mean_of_present_categories ⟨["calidad_dqo", "calidad_dbo"],
      [[Val.str "Excelente", Val.str "Contaminada"]]⟩ (by decide) (by decide)
    [Val.str "Excelente", Val.str "Contaminada", Val.num 1, Val.num 4, Val.num (mkRat 5 2)]
    (by decide), by decide, by decide⟩

/-- C1 counterexample: on a source file supplying a column whose normalized
name starts with `indice_calidad_` (here `indice_calidad_extra` with value
7), the row's general index is 4 -- the mean over the prefixed columns -- and
not 1, the mean of the ordinal codes of the only present quality category
(DQO = Excelente, code 1); so the general index is not always the mean of the
three categories' codes. -/
theorem general_index_counterexample_prefix_column :
    cell (transform_quality_data ⟨["calidad_dqo", "indice_calidad_extra"],
        [[Val.str "Excelente", Val.num 7]]⟩).cols
      ((transform_quality_data ⟨["calidad_dqo", "indice_calidad_extra"],
        [[Val.str "Excelente", Val.num 7]]⟩).rows.getD 0 [])
      "indice_calidad_general" = Val.num 4 ∧
    meanOpt (numVals
      [cell (transform_quality_data ⟨["calidad_dqo", "indice_calidad_extra"],
          [[Val.str "Excelente", Val.num 7]]⟩).cols
        ((transform_quality_data ⟨["calidad_dqo", "indice_calidad_extra"],
          [[Val.str "Excelente", Val.num 7]]⟩).rows.getD 0 []) "indice_calidad_dqo",
       cell (transform_quality_data ⟨["calidad_dqo", "indice_calidad_extra"],
          [[Val.str "Excelente", Val.num 7]]⟩).cols
        ((transform_quality_data ⟨["calidad_dqo", "indice_calidad_extra"],
          [[Val.str "Excelente", Val.num 7]]⟩).rows.getD 0 []) "indice_calidad_dbo",
       cell (transform_quality_data ⟨["calidad_dqo", "indice_calidad_extra"],
          [[Val.str "Excelente", Val.num 7]]⟩).cols
        ((transform_quality_data ⟨["calidad_dqo", "indice_calidad_extra"],
          [[Val.str "Excelente", Val.num 7]]⟩).rows.getD 0 []) "indice_calidad_sst"]) =
      Val.num 1 ∧
    Val.num 4 ≠ Val.num 1 :=
  ⟨by decide, by decide, by decide⟩

/-- C4: the two dependent views are dropped strictly before the table is
replaced: a run whose view-drop transaction fails stops with an error leaving
the whole database state (table included) unchanged, and a run that fails at
the table-replacement step has already dropped the two views but still has
the original table contents. -/
theorem load_drop_views_before_replace (env : LoadEnv) (db : DBState) :
    (env.connOk = true → env.dropViewsOk = false →
      (load env db).1 = db ∧ (load env db).2 = some "drop views error") ∧
    (env.connOk = true → env.dropViewsOk = true → env.replaceOk = false →
      (load env db).1.table = db.table ∧
      (load env db).1.views = (dropTwoViews db).views ∧
      (load env db).2 = some "table replace error") := by
  constructor
  · intro hc hd
    simp [load, hc, hd]
  · intro hc hd hr
    simp [load, hc, hd, hr, dropTwoViews]

theorem load_drop_views_before_replace_witness :
    (load ⟨["estado"], [[Val.str "X"]], 5, true, false, true, true, true⟩
        ⟨[("resumen_por_estado", "old")], some (["a"], [[Val.num 1]])⟩).1 =
      ⟨[("resumen_por_estado", "old")], some (["a"], [[Val.num 1]])⟩ ∧
    (load ⟨["estado"], [[Val.str "X"]], 5, true, false, true, true, true⟩
        ⟨[("resumen_por_estado", "old")], some (["a"], [[Val.num 1]])⟩).2 =
      some "drop views error" :=
  (load_drop_views_before_replace
    ⟨["estado"], [[Val.str "X"]], 5, true, false, true, true, true⟩
    ⟨[("resumen_por_estado", "old")], some (["a"], [[Val.num 1]])⟩).1 rfl rfl

/-- Helper: a fully successful load run replaces the table wholesale and
leaves exactly the two recreated views appended to the untouched other
views. -/
theorem load_run_ok (env : LoadEnv) (db : DBState)
    (h1 : env.connOk = true) (h2 : env.dropViewsOk = true) (h3 : env.replaceOk = true)
    (h4 : env.createViewsOk = true) (h5 : env.verifyOk = true) :
    load env db =
      (⟨(dropTwoViews db).views ++
          [("resumen_por_estado", resumen_sql), ("calidad_por_periodo", periodo_sql)],
        some (env.inputCols ++ ["fecha_carga"],
          env.inputRows.map (fun r => r ++ [Val.num env.now]))⟩, none) := by
  simp [load, h1, h2, h3, h4, h5, dropTwoViews]

theorem dropTwoViews_views_idem (vs : List (String × String)) :
    (vs.filter (fun v => v.1 ≠ "resumen_por_estado" ∧ v.1 ≠ "calidad_por_periodo")).filter
        (fun v => v.1 ≠ "resumen_por_estado" ∧ v.1 ≠ "calidad_por_periodo") =
      vs.filter (fun v => v.1 ≠ "resumen_por_estado" ∧ v.1 ≠ "calidad_por_periodo") := by
  rw [List.filter_filter]
  exact List.filter_congr (fun a _ => Bool.and_self _)

/-- C6: the load replaces the destination table wholesale -- its resulting
table does not depend on the prior table contents -- and running a second
successful load (same input, possibly another timestamp) on the state left by
a first one reproduces the same row count and exactly the same views. -/
theorem load_replace_idempotent (env env2 : LoadEnv) (db : DBState)
    (h1 : env.connOk = true) (h2 : env.dropViewsOk = true) (h3 : env.replaceOk = true)
    (h4 : env.createViewsOk = true) (h5 : env.verifyOk = true)
    (g1 : env2.connOk = true) (g2 : env2.dropViewsOk = true) (g3 : env2.replaceOk = true)
    (g4 : env2.createViewsOk = true) (g5 : env2.verifyOk = true)
    (hin : env2.inputRows.length = env.inputRows.length) :
    (load env db).2 = none ∧
    (load env db).1.table =
      some (env.inputCols ++ ["fecha_carga"],
        env.inputRows.map (fun r => r ++ [Val.num env.now])) ∧
    (∀ db2 : DBState, (load env db2).1.table = (load env db).1.table) ∧
    tableRowCount (load env2 (load env db).1).1 = tableRowCount (load env db).1 ∧
    (load env2 (load env db).1).1.views = (load env db).1.views := by
  rw [load_run_ok env db h1 h2 h3 h4 h5,
    load_run_ok env2 _ g1 g2 g3 g4 g5]
  refine ⟨rfl, rfl, ?_, ?_, ?_⟩
  · intro db2
    rw [load_run_ok env db2 h1 h2 h3 h4 h5]
  · simp [tableRowCount, hin]
  · simp only [dropTwoViews, List.filter_append]
    rw [dropTwoViews_views_idem]
    rw [show ([("resumen_por_estado", resumen_sql), ("calidad_por_periodo", periodo_sql)] :
        List (String × String)).filter
        (fun v => v.1 ≠ "resumen_por_estado" ∧ v.1 ≠ "calidad_por_periodo") = [] from rfl]
    rw [List.append_nil]

theorem load_replace_idempotent_witness :
    (load ⟨["estado"], [[Val.str "X"]], 5, true, true, true, true, true⟩
        ⟨[("otra_vista", "def")], some (["a"], [[Val.num 1], [Val.num 2]])⟩).2 = none ∧
    (load ⟨["estado"], [[Val.str "X"]], 5, true, true, true, true, true⟩
        ⟨[("otra_vista", "def")], some (["a"], [[Val.num 1], [Val.num 2]])⟩).1.table =
      some (["estado", "fecha_carga"], [[Val.str "X", Val.num 5]]) ∧
    ((load ⟨["estado"], [[Val.str "X"]], 5, true, true, true, true, true⟩ ⟨[], none⟩).1.table =
      (load ⟨["estado"], [[Val.str "X"]], 5, true, true, true, true, true⟩
        ⟨[("otra_vista", "def")], some (["a"], [[Val.num 1], [Val.num 2]])⟩).1.table) ∧
    tableRowCount (load ⟨["estado"], [[Val.str "X"]], 9, true, true, true, true, true⟩
        (load ⟨["estado"], [[Val.str "X"]], 5, true, true, true, true, true⟩
          ⟨[("otra_vista", "def")], some (["a"], [[Val.num 1], [Val.num 2]])⟩).1).1 =
      tableRowCount (load ⟨["estado"], [[Val.str "X"]], 5, true, true, true, true, true⟩
        ⟨[("otra_vista", "def")], some (["a"], [[Val.num 1], [Val.num 2]])⟩).1 ∧
    (load ⟨["estado"], [[Val.str "X"]], 9, true, true, true, true, true⟩
        (load ⟨["estado"], [[Val.str "X"]], 5, true, true, true, true, true⟩
          ⟨[("otra_vista", "def")], some (["a"], [[Val.num 1], [Val.num 2]])⟩).1).1.views =
      (load ⟨["estado"], [[Val.str "X"]], 5, true, true, true, true, true⟩
        ⟨[("otra_vista", "def")], some (["a"], [[Val.num 1], [Val.num 2]])⟩).1.views :=
  ⟨(load_replace_idempotent
      ⟨["estado"], [[Val.str "X"]], 5, true, true, true, true, true⟩
      ⟨["estado"], [[Val.str "X"]], 9, true, true, true, true, true⟩
      ⟨[("otra_vista", "def")], some (["a"], [[Val.num 1], [Val.num 2]])⟩
      rfl rfl rfl rfl rfl rfl rfl rfl rfl rfl rfl).1,
   (load_replace_idempotent
      ⟨["estado"], [[Val.str "X"]], 5, true, true, true, true, true⟩
      ⟨["estado"], [[Val.str "X"]], 9, true, true, true, true, true⟩
      ⟨[("otra_vista", "def")], some (["a"], [[Val.num 1], [Val.num 2]])⟩
      rfl rfl rfl rfl rfl rfl rfl rfl rfl rfl rfl).2.1,
   (load_replace_idempotent
      ⟨["estado"], [[Val.str "X"]], 5, true, true, true, true, true⟩
      ⟨["estado"], [[Val.str "X"]], 9, true, true, true, true, true⟩
      ⟨[("otra_vista", "def")], some (["a"], [[Val.num 1], [Val.num 2]])⟩
      rfl rfl rfl rfl rfl rfl rfl rfl rfl rfl rfl).2.2.1 ⟨[], none⟩,
   (load_replace_idempotent
      ⟨["estado"], [[Val.str "X"]], 5, true, true, true, true, true⟩
      ⟨["estado"], [[Val.str "X"]], 9, true, true, true, true, true⟩
      ⟨[("otra_vista", "def")], some (["a"], [[Val.num 1], [Val.num 2]])⟩
      rfl rfl rfl rfl rfl rfl rfl rfl rfl rfl rfl).2.2.2.1,
   (load_replace_idempotent
      ⟨["estado"], [[Val.str "X"]], 5, true, true, true, true, true⟩
      ⟨["estado"], [[Val.str "X"]], 9, true, true, true, true, true⟩
      ⟨[("otra_vista", "def")], some (["a"], [[Val.num 1], [Val.num 2]])⟩
      rfl rfl rfl rfl rfl rfl rfl rfl rfl rfl rfl).2.2.2.2⟩
